import Mathlib

/-!
# Verification of the Metagify audio-metadata core

A shallow embedding, in Lean 4, of the metadata-saving core of the
Metagify repository (`src/Metagify.py`, with `src/Metatag.py` as a sibling
implementation).  Python dictionaries of easy-mode mutagen tags become
functions `String → Option String`; the per-format embedded-picture state
(`APIC` frames, FLAC picture blocks, MP4 `covr` atoms, Vorbis
`metadata_block_picture` comments) is carried explicitly on each file
record; the filesystem is a function from path to file record.  I/O
failures that the Python code observes as exceptions (mutagen returning
`None`, `save()` raising) are modelled as boolean fault flags on the file
record.  Byte strings are `List Nat`.
-/

namespace Metagify

/-- Easy-mode mutagen tag dictionary: native key ↦ value. -/
def Tags : Type := String → Option String

/-- `audio[key] = value` on an easy-mode tag dictionary. -/
def setKey (t : Tags) (k v : String) : Tags :=
  fun q => if q = k then some v else t q

/-- `del audio[key]` on an easy-mode tag dictionary. -/
def delKey (t : Tags) (k : String) : Tags :=
  fun q => if q = k then none else t q

/-- One audio file as the program manipulates it.

`ext` is the lowercased extension; `tags` the easy-mode scalar tags.
The four picture stores correspond to the four container formats:
`apicFrames` are ID3 `APIC` frames keyed by description (a frame's
mutagen hash key is `"APIC:" ++ desc`), stored as `(desc, mime, data)`;
`flacPictures` are FLAC picture blocks `(mime, data)`; `covr` is the MP4
`covr` atom (`none` = key absent, `some l` = key present holding the
cover list `(data, imageformat)`); `vorbisPics` is the
`metadata_block_picture` Vorbis comment (`none` = absent), holding the
decoded content `(mime, data)` of each base64 entry.

`unreadable` models `mutagen.File` returning `None` (or raising) for this
path; `tagSaveRaises` models `audio.save()` raising during the scalar-tag
save; `artSaveRaises` models the save inside the album-art writer
raising. -/
structure AudioFileM where
  ext : String
  unreadable : Bool
  tags : Tags
  apicFrames : List (String × String × List Nat)
  flacPictures : List (String × List Nat)
  covr : Option (List (List Nat × Nat))
  vorbisPics : Option (List (String × List Nat))
  tagSaveRaises : Bool
  artSaveRaises : Bool

/-- The filesystem: path ↦ file state. -/
def FS : Type := String → AudioFileM

/-- Write one file back to the filesystem. -/
def fsSet (fs : FS) (p : String) (f : AudioFileM) : FS :=
  fun q => if q = p then f else fs q

/-- Split a character list on a separator character; like Python's
`str.split(sep)`, the result always has at least one (possibly empty)
piece. -/
def splitOnChar (sep : Char) : List Char → List (List Char)
  | [] => [[]]
  | c :: cs =>
    match splitOnChar sep cs with
    | [] => if c = sep then [[], []] else [[c]]
    | r :: rs => if c = sep then [] :: r :: rs else (c :: r) :: rs

/-- `os.path.basename`: the part of the path after the last `/`. -/
def basename (p : String) : String :=
  ⟨(splitOnChar '/' p.data).getLastD p.data⟩

/-- The `TAG_MAP` constant of `Metagify.py`: display name ↦ native key. -/
def TAG_MAP : List (String × String) :=
  [("Title", "title"), ("Artist", "artist"), ("Album", "album"),
   ("Album Artist", "albumartist"), ("Year", "date"), ("Genre", "genre"),
   ("Track Number", "tracknumber"), ("Composer", "composer"),
   ("Producer", "producer"), ("Copyright", "copyright"),
   ("Comment", "comment"), ("BPM", "bpm"), ("ISRC", "isrc"),
   ("Catalog Number", "catalognumber")]

/-- `TAG_MAP[tag_display]` (every display name the code uses is a key of
`TAG_MAP`, so the default is never reached in the program). -/
def tagMapKey (display : String) : String :=
  ((TAG_MAP.find? (fun e => e.1 = display)).map (fun e => e.2)).getD ""

/-- One iteration of the per-field loop of `process_and_save`
(`Metagify.py` lines 252–257): a non-empty value sets the native key, an
empty value deletes it when present. -/
def applyField (t : Tags) (display value : String) : Tags :=
  let key := tagMapKey display
  if value ≠ "" then setKey t key value
  else if (t key).isSome then delKey t key
  else t

/-- The whole per-field loop over `tags_to_save.items()`. -/
def applyTags (t : Tags) (tagsToSave : List (String × String)) : Tags :=
  tagsToSave.foldl (fun acc e => applyField acc e.1 e.2) t

/-- `_save_album_art_to_file` (`Metagify.py` lines 336–369), acting on one
file.  Returns the persisted file state and the error message of the
`RuntimeError` it raises, if any.  When mutagen cannot open the file the
function returns silently; when the inner save raises, nothing is
persisted and the wrapped error propagates.  `art_data == b''` is the
delete instruction. -/
def save_album_art_to_file (f : AudioFileM) (artData : List Nat)
    (artMime : String) : AudioFileM × Option String :=
  if f.unreadable then (f, none)
  else if f.artSaveRaises then (f, some "Failed to save album art: save failed")
  else
    let deleteArt := artData = []
    if f.ext = ".mp3" then
      ({ f with apicFrames :=
          if deleteArt then [] else [("Cover", artMime, artData)] }, none)
    else if f.ext = ".flac" then
      ({ f with flacPictures :=
          if deleteArt then [] else [(artMime, artData)] }, none)
    else if f.ext = ".m4a" then
      ({ f with covr :=
          if deleteArt then some []
          else some [(artData, if artMime = "image/png" then 14 else 13)] }, none)
    else if f.ext = ".ogg" then
      ({ f with vorbisPics :=
          if deleteArt then none else some [(artMime, artData)] }, none)
    else (f, none)

/-- The body of one iteration of `process_and_save`'s file loop
(`Metagify.py` lines 246–266): open the file, apply the pending scalar
edits, save, then write the album art when an art instruction is present.
Returns the file state as persisted on disk and the error message
captured by the `except` clause, if any. -/
def processFile (tagsToSave : List (String × String))
    (art : Option (List Nat × String)) (f : AudioFileM) :
    AudioFileM × Option String :=
  if f.unreadable then (f, some "File could not be opened by mutagen.")
  else if f.tagSaveRaises then (f, some "save failed")
  else
    let f1 := { f with tags := applyTags f.tags tagsToSave }
    match art with
    | none => (f1, none)
    | some (artData, artMime) =>
      match save_album_art_to_file f1 artData artMime with
      | (f2, none) => (f2, none)
      | (_, some msg) => (f1, some msg)

/-- The report `process_and_save` emits through `processing_finished`. -/
structure Report where
  saved_count : Nat
  total_files : Nat
  errors : List String
deriving DecidableEq

/-- The file loop of `process_and_save` (`Metagify.py` lines 243–268).
`stop i` is the value of `self.stop_requested` observed at the top of
iteration `i`; a `true` reading breaks out of the loop.  Returns the
filesystem after all persisted writes, the final `saved_count`, and the
error list in append order. -/
def runSave (fs : FS) (paths : List String) (i : Nat)
    (tagsToSave : List (String × String)) (art : Option (List Nat × String))
    (stop : Nat → Bool) : FS × Nat × List String :=
  match paths with
  | [] => (fs, 0, [])
  | p :: rest =>
    if stop i then (fs, 0, [])
    else
      let r := processFile tagsToSave art (fs p)
      let fs' := fsSet fs p r.1
      let rec' := runSave fs' rest (i + 1) tagsToSave art stop
      match r.2 with
      | none => (rec'.1, rec'.2.1 + 1, rec'.2.2)
      | some msg =>
        (rec'.1, rec'.2.1,
         ("Error saving " ++ basename p ++ ": " ++ msg) :: rec'.2.2)

/-- `FileProcessor.process_and_save` (`Metagify.py` lines 237–274). -/
def process_and_save (paths : List String)
    (tagsToSave : List (String × String)) (art : Option (List Nat × String))
    (stop : Nat → Bool) (fs : FS) : FS × Report :=
  let r := runSave fs paths 0 tagsToSave art stop
  (r.1, ⟨r.2.1, paths.length, r.2.2⟩)

/-- The tag collection step of `Metagify.save_metadata`
(`Metagify.py` lines 1184–1193): in batch mode (more than one selected
file) only fields whose checkbox is checked enter `tags_to_save`; in
single mode every field does.  Both `self.checkboxes` and `self.fields`
are built over the display names of `TAG_MAP`, in order
(`Metagify.py` lines 746–758). -/
def buildTagsToSave (isBatchMode : Bool) (checked : String → Bool)
    (fieldText : String → String) : List (String × String) :=
  if isBatchMode then
    (TAG_MAP.map (fun e => e.1)).filterMap
      (fun d => if checked d then some (d, fieldText d) else none)
  else
    (TAG_MAP.map (fun e => e.1)).map (fun d => (d, fieldText d))

/-- `Metagify.save_metadata` (`Metagify.py` lines 1178–1199): collect the
fields to save (batch mode iff more than one file is selected) and hand
them to `process_and_save` together with the art instruction when the
art is dirty. -/
def save_metadata (selectedPaths : List String) (checked : String → Bool)
    (fieldText : String → String) (artDirty : Bool)
    (currentArt : Option (List Nat × String)) (stop : Nat → Bool)
    (fs : FS) : FS × Report :=
  let isBatchMode := decide (1 < selectedPaths.length)
  let tagsToSave := buildTagsToSave isBatchMode checked fieldText
  let art := if artDirty then currentArt else none
  process_and_save selectedPaths tagsToSave art stop fs

/-! ## Reading album art back (`Metagify.load_album_art`) -/

/-- What `load_album_art` (`Metagify.py` lines 1108–1138) leaves in the
UI: a picture payload, the explicit "No Album Art" state, or the
"Error Loading Art" state reached through the `except` clause. -/
inductive ArtReadResult where
  | art (data : List Nat)
  | noArt
  | error
deriving DecidableEq

/-- `Metagify.load_album_art` (`Metagify.py` lines 1108–1138), reduced to
the artwork it extracts.  The function opens the file without easy mode
and probes, in order: the ID3 hash key `'APIC:'` (which names only an
`APIC` frame whose description is empty — a frame's hash key is
`"APIC:" ++ desc`), the MP4 key `'covr'` (taking element 0, so a present
but empty cover list raises `IndexError`), and the attribute
`.pictures`, which only FLAC objects provide — on any other format the
attribute access raises `AttributeError`, caught as an art-loading
error. -/
def load_album_art (f : AudioFileM) : ArtReadResult :=
  if f.unreadable then .error
  else
    match (if f.ext = ".mp3" then f.apicFrames.find? (fun fr => fr.1 = "")
           else none) with
    | some fr => .art fr.2.2
    | none =>
      match f.covr with
      | some [] => .error
      | some (c :: _) => .art c.1
      | none =>
        if f.ext = ".flac" then
          match f.flacPictures with
          | [] => .noArt
          | pic :: _ => .art pic.2
        else .error

/-! ## The MusicBrainz release-application flow -/

/-- One entry of the fetched release's `track-list`: the position string
`number`, the recording title, and the optional per-track
`artist-credit-phrase`. -/
structure Track where
  number : String
  recordingTitle : String
  artistCreditPhrase : Option String

/-- The slice of the fetched MusicBrainz release the code reads.  The
code only ever consults `release['medium-list'][0]`, whose `track-list`
and optional `track-count` are `trackList` and `trackCount` here;
`artistCreditPhrase`, `title` and `date` are the release-level fields. -/
structure Release where
  trackList : List Track
  trackCount : Option Nat
  artistCreditPhrase : String
  title : String
  date : Option String

/-- `release_data.get('date', '').split('-')[0]`
(`Metagify.py` line 286): the portion of the date string before the
first hyphen (the whole string when it has no hyphen, `""` when the
release has no date). -/
def releaseYear (date : Option String) : String :=
  ⟨(splitOnChar '-' (date.getD "").data).headD []⟩

/-- `total_tracks` (`Metagify.py` lines 287–288): the medium's declared
`track-count` when present, otherwise the length of the track list. -/
def totalTracksOf (r : Release) : Nat :=
  r.trackCount.getD r.trackList.length

/-- The tag assignments of one iteration of
`process_and_save_musicbrainz`'s loop (`Metagify.py` lines 310–316). -/
def mbTags (t : Tags) (track : Track) (albumArtist albumTitle date : String)
    (totalTracks : Nat) : Tags :=
  let t := setKey t "title" track.recordingTitle
  let t := setKey t "artist" (track.artistCreditPhrase.getD albumArtist)
  let t := setKey t "albumartist" albumArtist
  let t := setKey t "album" albumTitle
  let t := setKey t "date" date
  setKey t "tracknumber" (track.number ++ "/" ++ toString totalTracks)

/-- The body of the `try` block of one iteration of
`process_and_save_musicbrainz`'s loop (`Metagify.py` lines 304–321),
after the file was opened: apply the derived tags, save, then write the
already-resized art when its payload is truthy (non-empty).  Returns the
persisted file state and the captured error message, if any. -/
def mbProcessFile (track : Track) (albumArtist albumTitle date : String)
    (totalTracks : Nat) (art : Option (List Nat × String)) (f : AudioFileM) :
    AudioFileM × Option String :=
  if f.tagSaveRaises then (f, some "save failed")
  else
    let newTags := mbTags f.tags track albumArtist albumTitle date totalTracks
    let f1 := { f with tags := newTags }
    match art with
    | none => (f1, none)
    | some (artData, artMime) =>
      if artData = [] then (f1, none)
      else
        match save_album_art_to_file f1 artData artMime with
        | (f2, none) => (f2, none)
        | (_, some msg) => (f1, some msg)

/-- The file loop of `process_and_save_musicbrainz`
(`Metagify.py` lines 301–325).  The `i`-th file is paired with
`tracks[i]`; an unopenable file is skipped silently (`continue`); when
the track list is exhausted the `tracks[i]` lookup raises `IndexError`,
caught as a per-file error. -/
def runMB (fs : FS) (paths : List String) (tracks : List Track) (i : Nat)
    (albumArtist albumTitle date : String) (totalTracks : Nat)
    (art : Option (List Nat × String)) (stop : Nat → Bool) :
    FS × Nat × List String :=
  match paths, tracks with
  | [], _ => (fs, 0, [])
  | p :: ps, [] =>
    if stop i then (fs, 0, [])
    else if (fs p).unreadable then
      runMB fs ps [] (i + 1) albumArtist albumTitle date totalTracks art stop
    else
      let rec' :=
        runMB fs ps [] (i + 1) albumArtist albumTitle date totalTracks art stop
      (rec'.1, rec'.2.1,
       ("Error applying data to " ++ basename p ++
        ": list index out of range") :: rec'.2.2)
  | p :: ps, track :: ts =>
    if stop i then (fs, 0, [])
    else if (fs p).unreadable then
      runMB fs ps ts (i + 1) albumArtist albumTitle date totalTracks art stop
    else
      let r := mbProcessFile track albumArtist albumTitle date totalTracks art (fs p)
      let fs' := fsSet fs p r.1
      let rec' :=
        runMB fs' ps ts (i + 1) albumArtist albumTitle date totalTracks art stop
      match r.2 with
      | none => (rec'.1, rec'.2.1 + 1, rec'.2.2)
      | some msg =>
        (rec'.1, rec'.2.1,
         ("Error applying data to " ++ basename p ++ ": " ++ msg)
           :: rec'.2.2)

/-- `FileProcessor.process_and_save_musicbrainz`
(`Metagify.py` lines 276–334), with the cover resizing abstracted to the
already-resized payload `art` (its bytes are opaque to every claim). -/
def process_and_save_musicbrainz (paths : List String) (r : Release)
    (art : Option (List Nat × String)) (stop : Nat → Bool) (fs : FS) :
    FS × Report :=
  let res := runMB fs paths r.trackList 0 r.artistCreditPhrase r.title
    (releaseYear r.date) (totalTracksOf r) art stop
  (res.1, ⟨res.2.1, paths.length, res.2.2⟩)

/-! ## Pairing files to tracks (`Metagify.apply_musicbrainz_data`) -/

/-- Code-point lexicographic `≤` on character lists: Python's string
comparison, used by `list.sort` on the basename key. -/
def lexLe : List Char → List Char → Bool
  | [], _ => true
  | _ :: _, [] => false
  | c :: cs, d :: ds =>
    if c.toNat < d.toNat then true
    else if d.toNat < c.toNat then false
    else lexLe cs ds

/-- The sort key comparison of `Metagify.py` line 1267: compare two paths
by their basenames. -/
def basenameLe (a b : String) : Bool :=
  lexLe (basename a).data (basename b).data

/-- Stable insertion, used to embed Python's stable
`list.sort(key=os.path.basename)`: `x` goes after every element whose
basename is ≤ its own. -/
def insertByBasename (x : String) : List String → List String
  | [] => [x]
  | y :: ys =>
    if basenameLe y x then y :: insertByBasename x ys
    else x :: y :: ys

/-- `selected_paths.sort(key=lambda p: os.path.basename(p))`
(`Metagify.py` line 1267): a stable sort of the selection by basename. -/
def sortByBasename (paths : List String) : List String :=
  paths.foldl (fun acc p => insertByBasename p acc) []

/-- The outcome of `Metagify.apply_musicbrainz_data`: either the
track-count-mismatch warning (carrying the selected and expected counts,
as the warning text does) with no processing, or the report of the
delegated batch write. -/
structure MBApplyOutcome where
  mismatch : Option (Nat × Nat)
  fs : FS
  report : Option Report

/-- `Metagify.apply_musicbrainz_data` (`Metagify.py` lines 1252–1271):
when the number of selected files differs from the number of tracks the
function warns and returns before any per-file work; otherwise it sorts
the selection by basename and delegates to
`process_and_save_musicbrainz`. -/
def apply_musicbrainz_data (r : Release) (selectedPaths : List String)
    (art : Option (List Nat × String)) (stop : Nat → Bool) (fs : FS) :
    MBApplyOutcome :=
  if selectedPaths.length ≠ r.trackList.length then
    ⟨some (selectedPaths.length, r.trackList.length), fs, none⟩
  else
    let sorted := sortByBasename selectedPaths
    let res := process_and_save_musicbrainz sorted r art stop fs
    ⟨none, res.1, some res.2⟩

/-! ## The spec's year derivation, for comparison -/

/-- The year derivation as the specification words it: the first 4
characters of the release's date string.  This definition follows the
spec, not the source; the source computes `releaseYear` instead, and the
two disagree on date strings whose first hyphen is not at position 4. -/
def specYearFirstFour (date : String) : String :=
  ⟨date.data.take 4⟩

/-! ## Concrete fixtures -/

/-- The everywhere-empty tag dictionary. -/
def emptyTags : Tags := fun _ => none

/-- A healthy, empty file of the given extension. -/
def okFile (ext : String) : AudioFileM :=
  ⟨ext, false, emptyTags, [], [], none, none, false, false⟩

/-- A file `mutagen.File` cannot open. -/
def unreadableFile : AudioFileM := { okFile ".mp3" with unreadable := true }

/-- A healthy file whose album-art save raises. -/
def artFaultFile (ext : String) : AudioFileM :=
  { okFile ext with artSaveRaises := true }

/-- Five MP3 paths, the third unreadable. -/
def fsThirdBad : FS :=
  fun p => if p = "f3.mp3" then unreadableFile else okFile ".mp3"

/-- A filesystem of healthy MP3 files. -/
def fsAllOk : FS := fun _ => okFile ".mp3"

/-- The five-file batch of the spec's examples. -/
def fivePaths : List String :=
  ["f1.mp3", "f2.mp3", "f3.mp3", "f4.mp3", "f5.mp3"]

/-! ## Scalar-tag lemmas -/

theorem setKey_self (t : Tags) (k v : String) : setKey t k v k = some v := by
  simp [setKey]

theorem setKey_ne (t : Tags) (k v q : String) (h : q ≠ k) :
    setKey t k v q = t q := by
  simp [setKey, h]

theorem delKey_self (t : Tags) (k : String) : delKey t k k = none := by
  simp [delKey]

theorem delKey_ne (t : Tags) (k q : String) (h : q ≠ k) :
    delKey t k q = t q := by
  simp [delKey, h]

/-- The field loop body at the field's own native key: a non-empty value
lands in the dictionary, an empty value leaves the key absent. -/
theorem applyField_at (t : Tags) (d v : String) :
    applyField t d v (tagMapKey d) = if v = "" then none else some v := by
  unfold applyField
  by_cases hv : v = ""
  · subst hv
    simp only [ne_eq, not_true_eq_false, if_neg, if_pos, reduceIte]
    by_cases hs : (t (tagMapKey d)).isSome
    · simp [hs, delKey_self]
    · simp only [hs, if_neg Bool.false_ne_true, reduceIte]
      cases h : t (tagMapKey d) with
      | none => simp
      | some w => rw [h] at hs; simp at hs
  · simp [hv, setKey_self]

/-- The field loop body leaves every other key alone. -/
theorem applyField_ne (t : Tags) (d v q : String) (h : q ≠ tagMapKey d) :
    applyField t d v q = t q := by
  unfold applyField
  by_cases hv : v = "" <;>
    simp only [hv, reduceIte, ne_eq, not_true_eq_false, not_false_eq_true]
  · by_cases hs : (t (tagMapKey d)).isSome <;> simp [hs, delKey_ne _ _ _ h]
  · simp [setKey_ne _ _ _ _ h]

/-- The whole field loop leaves untouched every key that belongs to no
entry of `tags_to_save`. -/
theorem applyTags_ne (L : List (String × String)) :
    ∀ (t : Tags) (q : String), (∀ e ∈ L, tagMapKey e.1 ≠ q) →
      applyTags t L q = t q := by
  induction L with
  | nil => intro t q _; rfl
  | cons e rest ih =>
    intro t q h
    have hhead : tagMapKey e.1 ≠ q := h e (List.mem_cons_self e rest)
    have htail : ∀ e' ∈ rest, tagMapKey e'.1 ≠ q :=
      fun e' he' => h e' (List.mem_cons_of_mem e he')
    show applyTags (applyField t e.1 e.2) rest q = t q
    rw [ih _ q htail, applyField_ne _ _ _ _ (Ne.symm hhead)]

/-- The whole field loop at the key of an entry of `tags_to_save`, when
the entries target pairwise distinct native keys. -/
theorem applyTags_at (L : List (String × String)) :
    ∀ (t : Tags) (d v : String),
      L.Pairwise (fun a b => tagMapKey a.1 ≠ tagMapKey b.1) →
      (d, v) ∈ L →
      applyTags t L (tagMapKey d) = if v = "" then none else some v := by
  induction L with
  | nil => intro t d v _ hmem; cases hmem
  | cons e rest ih =>
    intro t d v hpw hmem
    rw [List.pairwise_cons] at hpw
    rcases List.mem_cons.mp hmem with heq | htail
    · subst heq
      show applyTags (applyField t d v) rest (tagMapKey d) = _
      rw [applyTags_ne rest _ _
        (fun e' he' => Ne.symm (hpw.1 e' he')), applyField_at]
    · exact ih _ d v hpw.2 htail

/-- C6: for every applied field during a save, a non-empty value sets or
overwrites the native key and an empty value removes the key from the
file entirely, so a saved file never holds a blank value under an applied
key — blank and absent are never ambiguous. -/
theorem C6_applied_field_blank_means_absent :
    ∀ (t : Tags) (L : List (String × String)) (d v : String),
      L.Pairwise (fun a b => tagMapKey a.1 ≠ tagMapKey b.1) →
      (d, v) ∈ L →
      applyTags t L (tagMapKey d) = (if v = "" then none else some v) ∧
      applyTags t L (tagMapKey d) ≠ some "" := by
  intro t L d v hpw hmem
  have h := applyTags_at L t d v hpw hmem
  refine ⟨h, ?_⟩
  rw [h]
  by_cases hv : v = "" <;> simp [hv]

/-- C6 witness: saving `Title := "T"` and a blank `Artist` over a file
that previously had both stores the title and removes the artist key. -/
theorem C6_applied_field_blank_means_absent_witness :
    ([("Title", "T"), ("Artist", "")].Pairwise
       (fun a b => tagMapKey a.1 ≠ tagMapKey b.1) ∧
     ("Artist", "") ∈ [("Title", "T"), ("Artist", "")]) ∧
    (applyTags (fun _ => some "old") [("Title", "T"), ("Artist", "")]
       (tagMapKey "Artist") = (if "" = "" then none else some "") ∧
     applyTags (fun _ => some "old") [("Title", "T"), ("Artist", "")]
       (tagMapKey "Artist") ≠ some "") :=
  ⟨⟨by decide, by decide⟩,
   C6_applied_field_blank_means_absent (fun _ => some "old")
     [("Title", "T"), ("Artist", "")] "Artist" "" (by decide) (by decide)⟩

/-! ## Batch save: error isolation and cooperative stop -/

/-- Without a stop request, every file contributes exactly one of a
success or an error entry: `saved_count + |errors| = |paths|`. -/
theorem runSave_count_errors (paths : List String) :
    ∀ (fs : FS) (i : Nat) (L : List (String × String))
      (art : Option (List Nat × String)),
      (runSave fs paths i L art (fun _ => false)).2.1 +
        (runSave fs paths i L art (fun _ => false)).2.2.length
        = paths.length := by
  induction paths with
  | nil => intro fs i L a; simp [runSave]
  | cons p ps ih =>
    intro fs i L a
    simp only [runSave, Bool.false_eq_true, reduceIte]
    cases h : (processFile L a (fs p)).2 with
    | none =>
      simp only [h, List.length_cons]
      have := ih (fsSet fs p (processFile L a (fs p)).1) (i + 1) L a
      omega
    | some m =>
      simp only [h, List.length_cons]
      have := ih (fsSet fs p (processFile L a (fs p)).1) (i + 1) L a
      omega

/-- C1: an exception while saving one file of a batch appends exactly one
error entry naming that file's basename and the batch continues with all
remaining files; over `saveAll` of 5 files where only file #3 throws, the
report has `saved_count = 4` and exactly one error entry naming
`f3.mp3`, and files #4 and #5 are still processed. -/
theorem C1_batch_save_error_isolation :
    (∀ (paths : List String) (L : List (String × String))
       (art : Option (List Nat × String)) (fs : FS),
       (process_and_save paths L art (fun _ => false) fs).2.saved_count +
         (process_and_save paths L art (fun _ => false) fs).2.errors.length
         = (process_and_save paths L art (fun _ => false) fs).2.total_files) ∧
    (process_and_save fivePaths [("Title", "T")] none (fun _ => false)
        fsThirdBad).2 =
      ⟨4, 5, ["Error saving f3.mp3: File could not be opened by mutagen."]⟩ ∧
    ((process_and_save fivePaths [("Title", "T")] none (fun _ => false)
        fsThirdBad).1 "f4.mp3").tags "title" = some "T" ∧
    ((process_and_save fivePaths [("Title", "T")] none (fun _ => false)
        fsThirdBad).1 "f5.mp3").tags "title" = some "T" := by
  refine ⟨?_, by decide, by decide, by decide⟩
  intro paths L art fs
  simpa [process_and_save] using runSave_count_errors paths fs 0 L art

/-- A stop flag first observed true at iteration `i + k` makes the run
behave exactly like a run over the first `k` files alone. -/
theorem runSave_stop_take (paths : List String) :
    ∀ (fs : FS) (i k : Nat) (L : List (String × String))
      (art : Option (List Nat × String)),
      runSave fs paths i L art (fun j => decide (i + k ≤ j)) =
        runSave fs (paths.take k) i L art (fun _ => false) := by
  induction paths with
  | nil => intro fs i k L a; simp [runSave]
  | cons p ps ih =>
    intro fs i k L a
    cases k with
    | zero =>
      have h1 : i + 0 ≤ i := by omega
      simp [runSave, h1]
    | succ m =>
      have h1 : ¬ (i + (m + 1) ≤ i) := by omega
      have harg : (fun j => decide (i + (m + 1) ≤ j)) =
          (fun j => decide ((i + 1) + m ≤ j)) := by
        funext j; exact decide_eq_decide.mpr (by omega)
      simp only [runSave, List.take_succ_cons, h1, decide_eq_true_eq,
        reduceIte, Bool.false_eq_true]
      rw [harg, ih]

/-- C7: a stop flag set after `k` of `n` files have been attempted halts
the run before file `k+1` — the whole run equals a run over the first
`k` files — while the report still carries `total = n`; stopping after
file #2 of 5 yields `saved_count = 2`, `total = 5`, and file #3 is
untouched. -/
theorem C7_cooperative_stop_reflects_attempted :
    (∀ (paths : List String) (L : List (String × String))
       (art : Option (List Nat × String)) (fs : FS) (k : Nat),
       process_and_save paths L art (fun j => decide (k ≤ j)) fs =
         ((process_and_save (paths.take k) L art (fun _ => false) fs).1,
          ⟨(process_and_save (paths.take k) L art
              (fun _ => false) fs).2.saved_count,
           paths.length,
           (process_and_save (paths.take k) L art
              (fun _ => false) fs).2.errors⟩)) ∧
    (process_and_save fivePaths [("Title", "T")] none
        (fun j => decide (2 ≤ j)) fsAllOk).2 = ⟨2, 5, []⟩ ∧
    ((process_and_save fivePaths [("Title", "T")] none
        (fun j => decide (2 ≤ j)) fsAllOk).1 "f3.mp3").tags "title"
      = none := by
  refine ⟨?_, by decide, by decide⟩
  intro paths L art fs k
  have h0 : (fun j => decide (k ≤ j)) = (fun j => decide (0 + k ≤ j)) := by
    funext j; exact decide_eq_decide.mpr (by omega)
  rw [process_and_save, h0, runSave_stop_take]
  rfl

/-! ## Release application: precheck and pairing order -/

/-- C2: when the number of selected files differs from the number of
tracks of the fetched release, `apply_musicbrainz_data` performs zero
writes — the filesystem is returned unchanged and no per-file report is
produced — and fails with the track-count mismatch carrying the selected
and expected counts. -/
theorem C2_track_count_mismatch_no_writes :
    ∀ (r : Release) (selectedPaths : List String)
      (art : Option (List Nat × String)) (stop : Nat → Bool) (fs : FS),
      selectedPaths.length ≠ r.trackList.length →
      (apply_musicbrainz_data r selectedPaths art stop fs).fs = fs ∧
      (apply_musicbrainz_data r selectedPaths art stop fs).mismatch =
        some (selectedPaths.length, r.trackList.length) ∧
      (apply_musicbrainz_data r selectedPaths art stop fs).report = none := by
  intro r paths art stop fs h
  refine ⟨?_, ?_, ?_⟩ <;> simp [apply_musicbrainz_data, h]

/-- A two-track release used by the mismatch and pairing scenarios. -/
def twoTrackRelease : Release :=
  ⟨[⟨"1", "Song One", none⟩, ⟨"2", "Song Two", none⟩], none,
   "Artist", "Album", some "2001-05-05"⟩

/-- C2 witness: one selected file against the two-track release leaves
the filesystem untouched and reports the mismatch `(1, 2)`. -/
theorem C2_track_count_mismatch_no_writes_witness :
    (["a.mp3"].length ≠ twoTrackRelease.trackList.length) ∧
    ((apply_musicbrainz_data twoTrackRelease ["a.mp3"] none (fun _ => false)
        fsAllOk).fs = fsAllOk ∧
     (apply_musicbrainz_data twoTrackRelease ["a.mp3"] none (fun _ => false)
        fsAllOk).mismatch =
       some (["a.mp3"].length, twoTrackRelease.trackList.length) ∧
     (apply_musicbrainz_data twoTrackRelease ["a.mp3"] none (fun _ => false)
        fsAllOk).report = none) :=
  ⟨by decide,
   C2_track_count_mismatch_no_writes twoTrackRelease ["a.mp3"] none
     (fun _ => false) fsAllOk (by decide)⟩

/-- Inserting by basename produces a permutation of consing. -/
theorem insertByBasename_perm (x : String) :
    ∀ l : List String, List.Perm (insertByBasename x l) (x :: l) := by
  intro l
  induction l with
  | nil => exact List.Perm.refl _
  | cons y ys ih =>
    by_cases h : basenameLe y x
    · simp only [insertByBasename, h, reduceIte]
      exact (ih.cons y).trans (List.Perm.swap x y ys)
    · simp only [insertByBasename, h, Bool.false_eq_true, reduceIte]
      exact List.Perm.refl _

/-- The basename sort permutes its input. -/
theorem sortByBasename_perm (paths : List String) :
    List.Perm (sortByBasename paths) paths := by
  suffices h : ∀ (ps acc : List String),
      List.Perm (ps.foldl (fun acc p => insertByBasename p acc) acc) (acc ++ ps) by
    simpa using h paths []
  intro ps
  induction ps with
  | nil => intro acc; simp
  | cons p ps' ih =>
    intro acc
    have s1 := ih (insertByBasename p acc)
    have s2 := (insertByBasename_perm p acc).append_right ps'
    have s3 : List.Perm ((p :: acc) ++ ps') (acc ++ p :: ps') :=
      List.perm_middle.symm
    exact (s1.trans s2).trans s3

/-- Totality of the code-point comparison. -/
theorem lexLe_total : ∀ as bs : List Char,
    lexLe as bs = true ∨ lexLe bs as = true := by
  intro as
  induction as with
  | nil => intro bs; left; rfl
  | cons c cs ih =>
    intro bs
    cases bs with
    | nil => right; rfl
    | cons d ds =>
      by_cases h1 : c.toNat < d.toNat
      · left; simp [lexLe, h1]
      · by_cases h2 : d.toNat < c.toNat
        · right; simp [lexLe, h2]
        · rcases ih ds with h | h
          · left; simp [lexLe, h1, h2, h]
          · right; simp [lexLe, h1, h2, h]

/-- Transitivity of the code-point comparison. -/
theorem lexLe_trans : ∀ as bs cs : List Char,
    lexLe as bs = true → lexLe bs cs = true → lexLe as cs = true := by
  intro as
  induction as with
  | nil => intro bs cs _ _; rfl
  | cons a as' ih =>
    intro bs cs h1 h2
    cases bs with
    | nil => simp [lexLe] at h1
    | cons b bs' =>
      cases cs with
      | nil => simp [lexLe] at h2
      | cons c cs' =>
        by_cases hab : a.toNat < b.toNat
        · by_cases hbc : b.toNat < c.toNat
          · have hac : a.toNat < c.toNat := by omega
            simp [lexLe, hac]
          · by_cases hcb : c.toNat < b.toNat
            · simp [lexLe, hbc, hcb] at h2
            · have hac : a.toNat < c.toNat := by omega
              simp [lexLe, hac]
        · by_cases hba : b.toNat < a.toNat
          · simp [lexLe, hab, hba] at h1
          · by_cases hbc : b.toNat < c.toNat
            · have hac : a.toNat < c.toNat := by omega
              simp [lexLe, hac]
            · by_cases hcb : c.toNat < b.toNat
              · simp [lexLe, hbc, hcb] at h2
              · have hac : ¬ a.toNat < c.toNat := by omega
                have hca : ¬ c.toNat < a.toNat := by omega
                simp only [lexLe, hab, hba, reduceIte] at h1
                simp only [lexLe, hbc, hcb, reduceIte] at h2
                simp only [lexLe, hac, hca, reduceIte]
                exact ih bs' cs' h1 h2

/-- Totality of the basename comparison. -/
theorem basenameLe_total (a b : String) :
    basenameLe a b = true ∨ basenameLe b a = true :=
  lexLe_total _ _

/-- Transitivity of the basename comparison. -/
theorem basenameLe_trans (a b c : String) (h1 : basenameLe a b = true)
    (h2 : basenameLe b c = true) : basenameLe a c = true :=
  lexLe_trans _ _ _ h1 h2

/-- Inserting into a basename-sorted list keeps it sorted. -/
theorem insertByBasename_sorted (x : String) :
    ∀ l : List String, l.Pairwise (fun a b => basenameLe a b = true) →
      (insertByBasename x l).Pairwise (fun a b => basenameLe a b = true) := by
  intro l
  induction l with
  | nil => intro _; simp [insertByBasename]
  | cons y ys ih =>
    intro hpw
    rw [List.pairwise_cons] at hpw
    by_cases h : basenameLe y x
    · simp only [insertByBasename, h, reduceIte]
      rw [List.pairwise_cons]
      refine ⟨?_, ih hpw.2⟩
      intro z hz
      rcases List.mem_cons.mp
          ((insertByBasename_perm x ys).mem_iff.mp hz) with rfl | hz'
      · exact h
      · exact hpw.1 z hz'
    · simp only [insertByBasename, h, Bool.false_eq_true, reduceIte]
      rw [List.pairwise_cons]
      have hxy : basenameLe x y = true := by
        rcases basenameLe_total y x with hyx | hxy
        · exact absurd hyx h
        · exact hxy
      refine ⟨?_, List.pairwise_cons.mpr hpw⟩
      intro z hz
      rcases List.mem_cons.mp hz with rfl | hz'
      · exact hxy
      · exact basenameLe_trans x y z hxy (hpw.1 z hz')

/-- The basename sort sorts. -/
theorem sortByBasename_sorted (paths : List String) :
    (sortByBasename paths).Pairwise (fun a b => basenameLe a b = true) := by
  suffices h : ∀ (ps acc : List String),
      acc.Pairwise (fun a b => basenameLe a b = true) →
      (ps.foldl (fun acc p => insertByBasename p acc) acc).Pairwise
        (fun a b => basenameLe a b = true) from h paths [] (by simp)
  intro ps
  induction ps with
  | nil => intro acc h; exact h
  | cons p ps' ih => intro acc h; exact ih _ (insertByBasename_sorted p acc h)

/-- C3: before pairing, `apply_musicbrainz_data` re-sorts the selection
by basename — the processed list is `sortByBasename selectedPaths`, a
basename-sorted permutation of the selection — so given files
`["b.mp3", "a.mp3"]` and tracks 1 and 2, track 1 is written to
`a.mp3`. -/
theorem C3_pairing_sorted_by_basename :
    (∀ (r : Release) (paths : List String)
       (art : Option (List Nat × String)) (stop : Nat → Bool) (fs : FS),
       paths.length = r.trackList.length →
       (apply_musicbrainz_data r paths art stop fs).fs =
         (process_and_save_musicbrainz (sortByBasename paths) r art stop fs).1 ∧
       (apply_musicbrainz_data r paths art stop fs).report =
         some (process_and_save_musicbrainz (sortByBasename paths)
                 r art stop fs).2) ∧
    (∀ paths : List String, List.Perm (sortByBasename paths) paths ∧
       (sortByBasename paths).Pairwise (fun a b => basenameLe a b = true)) ∧
    ((apply_musicbrainz_data twoTrackRelease ["b.mp3", "a.mp3"] none
        (fun _ => false) fsAllOk).fs "a.mp3").tags "title" = some "Song One" ∧
    ((apply_musicbrainz_data twoTrackRelease ["b.mp3", "a.mp3"] none
        (fun _ => false) fsAllOk).fs "a.mp3").tags "tracknumber" = some "1/2" ∧
    ((apply_musicbrainz_data twoTrackRelease ["b.mp3", "a.mp3"] none
        (fun _ => false) fsAllOk).fs "b.mp3").tags "title" = some "Song Two" ∧
    ((apply_musicbrainz_data twoTrackRelease ["b.mp3", "a.mp3"] none
        (fun _ => false) fsAllOk).fs "b.mp3").tags "tracknumber"
      = some "2/2" := by
  refine ⟨?_, fun paths => ⟨sortByBasename_perm paths, sortByBasename_sorted paths⟩,
    by decide, by decide, by decide, by decide⟩
  intro r paths art stop fs h
  constructor <;> simp [apply_musicbrainz_data, h]

/-- C3 witness: the sorted-pairing equation instantiated at the two-file,
two-track scenario. -/
theorem C3_pairing_sorted_by_basename_witness :
    ((["b.mp3", "a.mp3"] : List String).length
        = twoTrackRelease.trackList.length) ∧
    ((apply_musicbrainz_data twoTrackRelease ["b.mp3", "a.mp3"] none
        (fun _ => false) fsAllOk).fs =
       (process_and_save_musicbrainz (sortByBasename ["b.mp3", "a.mp3"])
          twoTrackRelease none (fun _ => false) fsAllOk).1 ∧
     (apply_musicbrainz_data twoTrackRelease ["b.mp3", "a.mp3"] none
        (fun _ => false) fsAllOk).report =
       some (process_and_save_musicbrainz (sortByBasename ["b.mp3", "a.mp3"])
               twoTrackRelease none (fun _ => false) fsAllOk).2) :=
  ⟨by decide,
   C3_pairing_sorted_by_basename.1 twoTrackRelease ["b.mp3", "a.mp3"] none
     (fun _ => false) fsAllOk (by decide)⟩

/-! ## Per-track derivations -/

theorem fsSet_self (fs : FS) (p : String) (f : AudioFileM) :
    fsSet fs p f p = f := by
  simp [fsSet]

theorem fsSet_ne (fs : FS) (p : String) (f : AudioFileM) (q : String)
    (h : q ≠ p) : fsSet fs p f q = fs q := by
  simp [fsSet, h]

/-- The MusicBrainz file loop never touches a path outside its list. -/
theorem runMB_other (paths : List String) :
    ∀ (fs : FS) (tracks : List Track) (i : Nat)
      (aArtist aTitle dt : String) (tt : Nat)
      (art : Option (List Nat × String)) (stop : Nat → Bool) (q : String),
      q ∉ paths →
      (runMB fs paths tracks i aArtist aTitle dt tt art stop).1 q = fs q := by
  induction paths with
  | nil => intro fs tracks i aa bt dt tt art stop q _; cases tracks <;> rfl
  | cons p ps ih =>
    intro fs tracks i aa bt dt tt art stop q hq
    have hqp : q ≠ p := fun h => hq (h ▸ List.mem_cons_self p ps)
    have hq' : q ∉ ps := fun h => hq (List.mem_cons_of_mem p h)
    cases tracks with
    | nil =>
      simp only [runMB]
      split
      · rfl
      · split
        · exact ih fs [] (i + 1) aa bt dt tt art stop q hq'
        · exact ih fs [] (i + 1) aa bt dt tt art stop q hq'
    | cons track ts =>
      simp only [runMB]
      split
      · rfl
      · split
        · exact ih fs ts (i + 1) aa bt dt tt art stop q hq'
        · cases hr : (mbProcessFile track aa bt dt tt art (fs p)).2 <;>
            simp only [hr] <;>
            rw [ih _ ts (i + 1) aa bt dt tt art stop q hq', fsSet_ne _ _ _ _ hqp]

/-- The first file of a MusicBrainz run receives exactly the tags derived
from the first track (no art instruction, no stop, path not repeated). -/
theorem runMB_head (p : String) (ps : List String) (tr : Track)
    (ts : List Track) (fs : FS) (aa bt dt : String) (tt : Nat)
    (hnr : (fs p).unreadable = false) (hns : (fs p).tagSaveRaises = false)
    (hnm : p ∉ ps) :
    ((runMB fs (p :: ps) (tr :: ts) 0 aa bt dt tt none
        (fun _ => false)).1 p).tags = mbTags (fs p).tags tr aa bt dt tt := by
  simp only [runMB, hnr, Bool.false_eq_true, reduceIte, mbProcessFile, hns]
  rw [runMB_other ps _ ts 1 aa bt dt tt none (fun _ => false) p hnm,
    fsSet_self]

/-- The first file of `process_and_save_musicbrainz` receives the tags
derived from the first track and the release-level fields. -/
theorem process_mb_head (r : Release) (p : String) (ps : List String)
    (tr : Track) (ts : List Track) (fs : FS)
    (htr : r.trackList = tr :: ts)
    (hnr : (fs p).unreadable = false) (hns : (fs p).tagSaveRaises = false)
    (hnm : p ∉ ps) :
    ((process_and_save_musicbrainz (p :: ps) r none (fun _ => false) fs).1
        p).tags =
      mbTags (fs p).tags tr r.artistCreditPhrase r.title
        (releaseYear r.date) (totalTracksOf r) := by
  simp only [process_and_save_musicbrainz, htr]
  exact runMB_head p ps tr ts fs _ _ _ _ hnr hns hnm

theorem mbTags_tracknumber (t : Tags) (tr : Track) (aa bt dt : String)
    (tt : Nat) :
    mbTags t tr aa bt dt tt "tracknumber"
      = some (tr.number ++ "/" ++ toString tt) := by
  simp [mbTags, setKey]

theorem mbTags_date (t : Tags) (tr : Track) (aa bt dt : String) (tt : Nat) :
    mbTags t tr aa bt dt tt "date" = some dt := by
  simp [mbTags, setKey]

/-- C8: the stored track number of an applied track is the string
`<track.number>/<totalTracks>`, where `totalTracks` prefers the release's
declared track count and falls back to the length of the track list. -/
theorem C8_tracknumber_format :
    (∀ (r : Release) (c : Nat), r.trackCount = some c → totalTracksOf r = c) ∧
    (∀ r : Release, r.trackCount = none →
       totalTracksOf r = r.trackList.length) ∧
    (∀ (r : Release) (p : String) (ps : List String) (tr : Track)
       (ts : List Track) (fs : FS),
       r.trackList = tr :: ts →
       (fs p).unreadable = false → (fs p).tagSaveRaises = false → p ∉ ps →
       ((process_and_save_musicbrainz (p :: ps) r none (fun _ => false)
           fs).1 p).tags "tracknumber"
         = some (tr.number ++ "/" ++ toString (totalTracksOf r))) := by
  refine ⟨fun r c hc => by simp [totalTracksOf, hc],
    fun r hc => by simp [totalTracksOf, hc], ?_⟩
  intro r p ps tr ts fs htr hnr hns hnm
  rw [process_mb_head r p ps tr ts fs htr hnr hns hnm, mbTags_tracknumber]

/-- A single-track release declaring 12 tracks, track number 3. -/
def twelveTrackRelease : Release :=
  ⟨[⟨"3", "Song Three", none⟩], some 12, "Artist", "Album", some "2001-05-05"⟩

/-- C8 witness: track number 3 of a release declaring 12 tracks is stored
as `"3/12"`. -/
theorem C8_tracknumber_format_witness :
    (twelveTrackRelease.trackList = [⟨"3", "Song Three", none⟩] ∧
     (fsAllOk "t.mp3").unreadable = false ∧
     (fsAllOk "t.mp3").tagSaveRaises = false ∧
     "t.mp3" ∉ ([] : List String)) ∧
    ((process_and_save_musicbrainz ["t.mp3"] twelveTrackRelease none
        (fun _ => false) fsAllOk).1 "t.mp3").tags "tracknumber"
      = some "3/12" :=
  ⟨⟨rfl, rfl, rfl, by simp⟩,
   (C8_tracknumber_format.2.2 twelveTrackRelease "t.mp3" []
       ⟨"3", "Song Three", none⟩ [] fsAllOk rfl rfl rfl (by simp)).trans
     (by decide)⟩

/-- C9 counterexample: for a release whose date string is `"20240101"`
(no hyphen), the code stores the whole string as the year, while the
first four characters are `"2024"` — the claim's equation fails. -/
theorem C9_year_first_four_counterexample :
    ((process_and_save_musicbrainz ["t.mp3"]
        ⟨[⟨"1", "S", none⟩], none, "A", "Al", some "20240101"⟩ none
        (fun _ => false) fsAllOk).1 "t.mp3").tags "date" = some "20240101" ∧
    specYearFirstFour "20240101" = "2024" ∧
    ((process_and_save_musicbrainz ["t.mp3"]
        ⟨[⟨"1", "S", none⟩], none, "A", "Al", some "20240101"⟩ none
        (fun _ => false) fsAllOk).1 "t.mp3").tags "date"
      ≠ some (specYearFirstFour "20240101") := by
  refine ⟨by decide, by decide, by decide⟩

/-- C9 (amended): the year value written to each applied file's date
field is the portion of the release's date string before the first
hyphen (the whole string when it contains none, empty when the release
carries no date) — which coincides with the first four characters
exactly when the date is of the `YYYY-MM-DD` shape. -/
theorem C9_year_before_first_hyphen :
    ∀ (r : Release) (p : String) (ps : List String) (tr : Track)
      (ts : List Track) (fs : FS),
      r.trackList = tr :: ts →
      (fs p).unreadable = false → (fs p).tagSaveRaises = false → p ∉ ps →
      ((process_and_save_musicbrainz (p :: ps) r none (fun _ => false)
          fs).1 p).tags "date" = some (releaseYear r.date) := by
  intro r p ps tr ts fs htr hnr hns hnm
  rw [process_mb_head r p ps tr ts fs htr hnr hns hnm, mbTags_date]

/-- C9 witness: with date `"2001-05-05"` the stored year is `"2001"`. -/
theorem C9_year_before_first_hyphen_witness :
    (twelveTrackRelease.trackList = [⟨"3", "Song Three", none⟩] ∧
     (fsAllOk "u.mp3").unreadable = false ∧
     (fsAllOk "u.mp3").tagSaveRaises = false ∧
     "u.mp3" ∉ ([] : List String)) ∧
    ((process_and_save_musicbrainz ["u.mp3"] twelveTrackRelease none
        (fun _ => false) fsAllOk).1 "u.mp3").tags "date" = some "2001" :=
  ⟨⟨rfl, rfl, rfl, by simp⟩,
   (C9_year_before_first_hyphen twelveTrackRelease "u.mp3" []
       ⟨"3", "Song Three", none⟩ [] fsAllOk rfl rfl rfl (by simp)).trans
     (by decide)⟩

/-! ## Art-write failure after a successful tag save -/

/-- The art writer never touches the scalar tags, whatever happens. -/
theorem save_art_tags (f : AudioFileM) (a : List Nat) (m : String) :
    (save_album_art_to_file f a m).1.tags = f.tags := by
  obtain ⟨ext, unr, tg, ap, fp, cv, vp, tsr, asr⟩ := f
  unfold save_album_art_to_file
  cases unr
  · cases asr
    · simp only [Bool.false_eq_true, reduceIte]
      split_ifs <;> rfl
    · rfl
  · rfl

/-- A healthy art write reports no error. -/
theorem save_art_no_error (f : AudioFileM) (a : List Nat) (m : String)
    (h1 : f.unreadable = false) (h2 : f.artSaveRaises = false) :
    (save_album_art_to_file f a m).2 = none := by
  obtain ⟨ext, unr, tg, ap, fp, cv, vp, tsr, asr⟩ := f
  simp only at h1 h2
  subst h1; subst h2
  unfold save_album_art_to_file
  simp only [Bool.false_eq_true, reduceIte]
  split_ifs <;> rfl

/-- A fully healthy file makes it through tag and art save with no
error, ending with exactly the applied tags. -/
theorem processFile_ok (L : List (String × String)) (a : List Nat)
    (m : String) (f : AudioFileM) (h1 : f.unreadable = false)
    (h2 : f.tagSaveRaises = false) (h3 : f.artSaveRaises = false) :
    (processFile L (some (a, m)) f).2 = none ∧
    (processFile L (some (a, m)) f).1.tags = applyTags f.tags L := by
  obtain ⟨ext, unr, tg, ap, fp, cv, vp, tsr, asr⟩ := f
  simp only at h1 h2 h3
  subst h1; subst h2; subst h3
  unfold processFile
  simp only [Bool.false_eq_true, reduceIte]
  have he := save_art_no_error
    ⟨ext, false, applyTags tg L, ap, fp, cv, vp, false, false⟩ a m rfl rfl
  have ht := save_art_tags
    ⟨ext, false, applyTags tg L, ap, fp, cv, vp, false, false⟩ a m
  cases hs : save_album_art_to_file
      ⟨ext, false, applyTags tg L, ap, fp, cv, vp, false, false⟩ a m with
  | mk f2 e =>
    rw [hs] at he ht
    cases e with
    | none => exact ⟨rfl, ht⟩
    | some msg => exact absurd he (by simp)

/-- When the tag save succeeds but the art save raises, the captured
error is the wrapped art failure, yet the persisted file already carries
the applied tags — there is no rollback. -/
theorem processFile_art_fail (L : List (String × String)) (a : List Nat)
    (m : String) (f : AudioFileM) (h1 : f.unreadable = false)
    (h2 : f.tagSaveRaises = false) (h3 : f.artSaveRaises = true) :
    (processFile L (some (a, m)) f).2
        = some "Failed to save album art: save failed" ∧
    (processFile L (some (a, m)) f).1.tags = applyTags f.tags L := by
  obtain ⟨ext, unr, tg, ap, fp, cv, vp, tsr, asr⟩ := f
  simp only at h1 h2 h3
  subst h1; subst h2; subst h3
  unfold processFile
  simp only [Bool.false_eq_true, reduceIte]
  have hs : save_album_art_to_file
      ⟨ext, false, applyTags tg L, ap, fp, cv, vp, false, true⟩ a m =
      (⟨ext, false, applyTags tg L, ap, fp, cv, vp, false, true⟩,
       some "Failed to save album art: save failed") := by
    unfold save_album_art_to_file
    simp
  rw [hs]
  exact ⟨rfl, rfl⟩

/-- C10: in a batch where a file's tag save succeeds but its album-art
write raises, that file lands in the error list and not in
`saved_count`, yet the tag changes persisted before the art write remain
on the file — the report says error while the tags were in fact
written. -/
theorem C10_art_failure_reported_but_tags_persisted :
    ∀ (fs : FS) (q p : String) (L : List (String × String))
      (artData : List Nat) (artMime : String),
      p ≠ q →
      (fs q).unreadable = false → (fs q).tagSaveRaises = false →
      (fs q).artSaveRaises = false →
      (fs p).unreadable = false → (fs p).tagSaveRaises = false →
      (fs p).artSaveRaises = true →
      (process_and_save [q, p] L (some (artData, artMime))
          (fun _ => false) fs).2.saved_count = 1 ∧
      (process_and_save [q, p] L (some (artData, artMime))
          (fun _ => false) fs).2.total_files = 2 ∧
      (process_and_save [q, p] L (some (artData, artMime))
          (fun _ => false) fs).2.errors =
        ["Error saving " ++ basename p ++ ": " ++
         "Failed to save album art: save failed"] ∧
      ((process_and_save [q, p] L (some (artData, artMime))
          (fun _ => false) fs).1 p).tags = applyTags (fs p).tags L := by
  intro fs q p L a m hpq hq1 hq2 hq3 hp1 hp2 hp3
  have hq := processFile_ok L a m (fs q) hq1 hq2 hq3
  have hfs1 : fsSet fs q (processFile L (some (a, m)) (fs q)).1 p = fs p :=
    fsSet_ne _ _ _ _ hpq
  have hp := processFile_art_fail L a m (fs p) hp1 hp2 hp3
  simp only [process_and_save, runSave, Bool.false_eq_true, reduceIte, hq.1,
    hfs1, hp.1]
  refine ⟨by trivial, by trivial, by trivial, ?_⟩
  rw [fsSet_self]
  exact hp.2

/-- A two-file filesystem for the art-failure scenario: `h.mp3`'s art
save raises, everything else is healthy. -/
def c10fs : FS :=
  fun s => if s = "h.mp3" then artFaultFile ".mp3" else okFile ".mp3"

/-- C10 witness: over the batch `[g.mp3, h.mp3]` with an art instruction,
`h.mp3` is reported as an error and uncounted while its tag changes
persist. -/
theorem C10_art_failure_reported_but_tags_persisted_witness :
    (("h.mp3" : String) ≠ "g.mp3" ∧
     (c10fs "g.mp3").unreadable = false ∧
     (c10fs "g.mp3").tagSaveRaises = false ∧
     (c10fs "g.mp3").artSaveRaises = false ∧
     (c10fs "h.mp3").unreadable = false ∧
     (c10fs "h.mp3").tagSaveRaises = false ∧
     (c10fs "h.mp3").artSaveRaises = true) ∧
    ((process_and_save ["g.mp3", "h.mp3"] [("Title", "T")]
        (some ([9], "image/png")) (fun _ => false) c10fs).2.saved_count = 1 ∧
     (process_and_save ["g.mp3", "h.mp3"] [("Title", "T")]
        (some ([9], "image/png")) (fun _ => false) c10fs).2.total_files = 2 ∧
     (process_and_save ["g.mp3", "h.mp3"] [("Title", "T")]
        (some ([9], "image/png")) (fun _ => false) c10fs).2.errors =
       ["Error saving " ++ basename "h.mp3" ++ ": " ++
        "Failed to save album art: save failed"] ∧
     ((process_and_save ["g.mp3", "h.mp3"] [("Title", "T")]
        (some ([9], "image/png")) (fun _ => false) c10fs).1 "h.mp3").tags =
       applyTags (c10fs "h.mp3").tags [("Title", "T")]) :=
  ⟨⟨by decide, rfl, rfl, rfl, rfl, rfl, rfl⟩,
   C10_art_failure_reported_but_tags_persisted c10fs "g.mp3" "h.mp3"
     [("Title", "T")] [9] "image/png" (by decide) rfl rfl rfl rfl rfl rfl⟩

/-! ## Batch mode never touches an unflagged field -/

/-- The native keys of `TAG_MAP` are pairwise distinct across distinct
display names. -/
theorem tagMapKey_inj_on :
    ∀ a ∈ TAG_MAP.map Prod.fst, ∀ b ∈ TAG_MAP.map Prod.fst,
      a ≠ b → tagMapKey a ≠ tagMapKey b := by decide

/-- One file-loop iteration leaves untouched every native key outside the
pending edits, whatever the outcome. -/
theorem processFile_tags_other (L : List (String × String))
    (art : Option (List Nat × String)) (f : AudioFileM) (k : String)
    (hk : ∀ e ∈ L, tagMapKey e.1 ≠ k) :
    (processFile L art f).1.tags k = f.tags k := by
  obtain ⟨ext, unr, tg, ap, fp, cv, vp, tsr, asr⟩ := f
  unfold processFile
  cases unr
  · cases tsr
    · simp only [Bool.false_eq_true, reduceIte]
      cases art with
      | none => exact applyTags_ne L tg k hk
      | some am =>
        obtain ⟨a, m⟩ := am
        have ht := save_art_tags
          ⟨ext, false, applyTags tg L, ap, fp, cv, vp, false, asr⟩ a m
        cases hs : save_album_art_to_file
            ⟨ext, false, applyTags tg L, ap, fp, cv, vp, false, asr⟩ a m with
        | mk f2 e =>
          rw [hs] at ht
          cases e with
          | none =>
            simp only [hs]
            rw [show f2.tags = applyTags tg L from ht]
            exact applyTags_ne L tg k hk
          | some msg =>
            simp only [hs]
            exact applyTags_ne L tg k hk
    · rfl
  · rfl

/-- The whole batch loop leaves untouched, on every file, every native
key outside the pending edits. -/
theorem runSave_tags_other (paths : List String) :
    ∀ (fs : FS) (i : Nat) (L : List (String × String))
      (art : Option (List Nat × String)) (stop : Nat → Bool)
      (k q : String),
      (∀ e ∈ L, tagMapKey e.1 ≠ k) →
      ((runSave fs paths i L art stop).1 q).tags k = (fs q).tags k := by
  induction paths with
  | nil => intro fs i L art stop k q _; rfl
  | cons p ps ih =>
    intro fs i L art stop k q hk
    simp only [runSave]
    split
    · rfl
    · have hstep : ∀ fsx : FS,
          ((runSave (fsSet fs p (processFile L art (fs p)).1) ps (i + 1) L
              art stop).1 q).tags k = (fs q).tags k := by
        intro _
        rw [ih (fsSet fs p (processFile L art (fs p)).1) (i + 1) L art stop
          k q hk]
        by_cases hqp : q = p
        · subst hqp
          rw [fsSet_self]
          exact processFile_tags_other L art (fs q) k hk
        · rw [fsSet_ne _ _ _ _ hqp]
      cases hr : (processFile L art (fs p)).2 <;> simp only [hr] <;>
        exact hstep fs

/-- C5: in batch mode (two or more selected files), a field whose
inclusion checkbox is unchecked is never written to or deleted from any
file, whatever its text field displays — its native key is untouched on
every file of the filesystem. -/
theorem C5_batch_unchecked_field_untouched :
    ∀ (paths : List String) (checked : String → Bool)
      (fieldText : String → String) (artDirty : Bool)
      (art : Option (List Nat × String)) (stop : Nat → Bool) (fs : FS)
      (d q : String),
      1 < paths.length →
      d ∈ TAG_MAP.map Prod.fst →
      checked d = false →
      ((save_metadata paths checked fieldText artDirty art stop fs).1
          q).tags (tagMapKey d)
        = (fs q).tags (tagMapKey d) := by
  intro paths checked fieldText artDirty art stop fs d q hlen hd hc
  have hbatch : decide (1 < paths.length) = true := by simpa using hlen
  have hk : ∀ e ∈ buildTagsToSave true checked fieldText,
      tagMapKey e.1 ≠ tagMapKey d := by
    intro e he
    simp only [buildTagsToSave, reduceIte, List.mem_filterMap] at he
    obtain ⟨a, ha, hae⟩ := he
    by_cases hca : checked a = true
    · rw [if_pos hca] at hae
      cases hae
      have had : a ≠ d := fun h => by rw [h, hc] at hca; cases hca
      exact tagMapKey_inj_on a ha d hd had
    · rw [if_neg hca] at hae
      cases hae
  simp only [save_metadata, hbatch, process_and_save]
  exact runSave_tags_other paths fs 0 _ _ stop (tagMapKey d) q hk

/-- A filesystem whose files all carry an artist tag worth keeping. -/
def c5fs : FS :=
  fun _ => { okFile ".mp3" with
    tags := fun k => if k = "artist" then some "Keep" else none }

/-- C5 witness: with two files selected, only `Title` checked and a blank
`Artist` field displayed, the artist tag survives the save. -/
theorem C5_batch_unchecked_field_untouched_witness :
    (1 < (["f1.mp3", "f2.mp3"] : List String).length ∧
     "Artist" ∈ TAG_MAP.map Prod.fst ∧
     (fun s => s == "Title") "Artist" = false) ∧
    ((save_metadata ["f1.mp3", "f2.mp3"] (fun s => s == "Title")
        (fun _ => "") false none (fun _ => false) c5fs).1 "f1.mp3").tags
          (tagMapKey "Artist")
      = (c5fs "f1.mp3").tags (tagMapKey "Artist") :=
  ⟨⟨by decide, by decide, by decide⟩,
   C5_batch_unchecked_field_untouched ["f1.mp3", "f2.mp3"]
     (fun s => s == "Title") (fun _ => "") false none (fun _ => false) c5fs
     "Artist" "f1.mp3" (by decide) (by decide) (by decide)⟩

/-! ## Picture write / read across the four formats -/

/-- C4 counterexample: on an `.ogg` file, writing a picture and reading
it back does not return the picture — the reader never consults
`metadata_block_picture`, and the `.pictures` attribute probe raises, so
the read reports the error state. -/
theorem C4_picture_roundtrip_counterexample :
    load_album_art
        (save_album_art_to_file (okFile ".ogg") [1] "image/jpeg").1
      = .error ∧
    load_album_art
        (save_album_art_to_file (okFile ".ogg") [1] "image/jpeg").1
      ≠ .art [1] := by
  exact ⟨by decide, by decide⟩

/-- C4 (amended): the delete instruction removes every stored picture in
all four writers (MP3 `APIC` frames cleared, FLAC picture blocks
cleared, M4A `covr` left holding an empty list, Ogg
`metadata_block_picture` dropped), but write-then-read returns the
payload only for `.flac` and `.m4a`, and the reader never reports a
MIME; for `.mp3` the written frame is stored under description `Cover`
while the reader looks up the empty description, and for `.ogg` the
reader never consults `metadata_block_picture`, so on those formats
read-after-write does not return the picture; read-after-delete reports
absent for `.flac`. -/
theorem C4_picture_write_read_amended :
    ∀ (f : AudioFileM) (data : List Nat) (mime : String),
      f.unreadable = false → f.artSaveRaises = false → data ≠ [] →
      f.covr = none →
      ((f.ext = ".flac" →
         load_album_art (save_album_art_to_file f data mime).1 = .art data ∧
         (save_album_art_to_file f data mime).1.flacPictures
           = [(mime, data)] ∧
         load_album_art (save_album_art_to_file f [] mime).1 = .noArt ∧
         (save_album_art_to_file f [] mime).1.flacPictures = []) ∧
       (f.ext = ".m4a" →
         load_album_art (save_album_art_to_file f data mime).1 = .art data ∧
         (save_album_art_to_file f [] mime).1.covr = some []) ∧
       (f.ext = ".mp3" →
         (save_album_art_to_file f data mime).1.apicFrames
           = [("Cover", mime, data)] ∧
         load_album_art (save_album_art_to_file f data mime).1 = .error ∧
         (save_album_art_to_file f [] mime).1.apicFrames = []) ∧
       (f.ext = ".ogg" →
         (save_album_art_to_file f data mime).1.vorbisPics
           = some [(mime, data)] ∧
         load_album_art (save_album_art_to_file f data mime).1 = .error ∧
         (save_album_art_to_file f [] mime).1.vorbisPics = none)) := by
  intro f data mime h1 h3 hdata hcovr
  obtain ⟨ext, unr, tg, ap, fp, cv, vp, tsr, asr⟩ := f
  simp only at h1 h3 hcovr
  subst h1; subst h3; subst hcovr
  refine ⟨?_, ?_, ?_, ?_⟩ <;> intro hext <;> simp only at hext <;>
    subst hext <;>
    unfold save_album_art_to_file load_album_art <;>
    simp [hdata]

/-- C4 witness: the amended statement instantiated at a healthy `.flac`
file and the one-byte JPEG payload `[7]`. -/
theorem C4_picture_write_read_amended_witness :
    ((okFile ".flac").unreadable = false ∧
     (okFile ".flac").artSaveRaises = false ∧
     ([7] : List Nat) ≠ [] ∧
     (okFile ".flac").covr = none) ∧
    (((okFile ".flac").ext = ".flac" →
       load_album_art
           (save_album_art_to_file (okFile ".flac") [7] "image/jpeg").1
         = .art [7] ∧
       (save_album_art_to_file (okFile ".flac") [7] "image/jpeg").1.flacPictures
         = [("image/jpeg", [7])] ∧
       load_album_art
           (save_album_art_to_file (okFile ".flac") [] "image/jpeg").1
         = .noArt ∧
       (save_album_art_to_file (okFile ".flac") [] "image/jpeg").1.flacPictures
         = []) ∧
     ((okFile ".flac").ext = ".m4a" →
       load_album_art
           (save_album_art_to_file (okFile ".flac") [7] "image/jpeg").1
         = .art [7] ∧
       (save_album_art_to_file (okFile ".flac") [] "image/jpeg").1.covr
         = some []) ∧
     ((okFile ".flac").ext = ".mp3" →
       (save_album_art_to_file (okFile ".flac") [7] "image/jpeg").1.apicFrames
         = [("Cover", "image/jpeg", [7])] ∧
       load_album_art
           (save_album_art_to_file (okFile ".flac") [7] "image/jpeg").1
         = .error ∧
       (save_album_art_to_file (okFile ".flac") [] "image/jpeg").1.apicFrames
         = []) ∧
     ((okFile ".flac").ext = ".ogg" →
       (save_album_art_to_file (okFile ".flac") [7] "image/jpeg").1.vorbisPics
         = some [("image/jpeg", [7])] ∧
       load_album_art
           (save_album_art_to_file (okFile ".flac") [7] "image/jpeg").1
         = .error ∧
       (save_album_art_to_file (okFile ".flac") [] "image/jpeg").1.vorbisPics
         = none)) :=
  ⟨⟨rfl, rfl, by decide, rfl⟩,
   C4_picture_write_read_amended (okFile ".flac") [7] "image/jpeg"
     rfl rfl (by decide) rfl⟩

end Metagify
